import Mathlib

/-!
Verification of the CairoSVG bounding-box module (`cairosvg/bounding_box.py`).

Python floats are modelled as extended reals (`EReal`): the sentinel
`float('inf')` is `⊤` and `float('-inf')` is `⊥`; NaN does not arise in the
modelled fragment.  Python values that may dynamically be either a float or a
string (raw path-data tokens) are modelled by `PyVal`; code that can raise is
modelled with `Except PyErr`.  Line numbers in the comments refer to
`cairosvg/bounding_box.py`.
-/

open scoped Classical

namespace CairoSVG

/-- Python exceptions raised by the modelled code. -/
inductive PyErr where
  | typeError
  | valueError
  | indexError
  deriving DecidableEq

/-- A bounding box is a `(minx, miny, width, height)` tuple of floats
(module docstring, line 20). -/
abbrev BBox := EReal × EReal × EReal × EReal

/-- Line 32: `EMPTY_BOUNDING_BOX = float('inf'), float('inf'), 0, 0`. -/
def EMPTY_BOUNDING_BOX : BBox := (⊤, ⊤, 0, 0)

/-- Python `math.isinf`: true on both infinities. -/
def isInfE (x : EReal) : Prop := x = ⊤ ∨ x = ⊥

/-- A dynamically typed Python value: a float or a string. -/
inductive PyVal where
  | num (v : EReal)
  | str (s : String)

/-- Python `min(acc, v₁, …, vₙ)` where `acc` is a float and the `vᵢ` are
dynamically typed: comparing a float with a string raises `TypeError`. -/
noncomputable def pyFoldMin (acc : EReal) : List PyVal → Except PyErr EReal
  | [] => .ok acc
  | .num v :: rest => pyFoldMin (min acc v) rest
  | .str _ :: _ => .error .typeError

/-- Python `max(acc, v₁, …, vₙ)` with the same dynamic-typing behaviour. -/
noncomputable def pyFoldMax (acc : EReal) : List PyVal → Except PyErr EReal
  | [] => .ok acc
  | .num v :: rest => pyFoldMax (max acc v) rest
  | .str _ :: _ => .error .typeError

/-- Embedding of `extend_bounding_box` (lines 365-375).  `zip(*points)`
unpacking into two variables raises `ValueError` when `points` is empty. -/
noncomputable def extend_bounding_box (bb : BBox) (points : List (PyVal × PyVal)) :
    Except PyErr BBox :=
  let minx := bb.1
  let miny := bb.2.1
  let width := bb.2.2.1
  let height := bb.2.2.2
  let maxx : EReal := if isInfE minx then ⊥ else minx + width
  let maxy : EReal := if isInfE miny then ⊥ else miny + height
  match points with
  | [] => .error .valueError
  | _ :: _ => do
    let minx2 ← pyFoldMin minx (points.map Prod.fst)
    let miny2 ← pyFoldMin miny (points.map Prod.snd)
    let maxx2 ← pyFoldMax maxx (points.map Prod.fst)
    let maxy2 ← pyFoldMax maxy (points.map Prod.snd)
    .ok (minx2, miny2, maxx2 - minx2, maxy2 - miny2)

/-- Embedding of `is_valid_bounding_box` (lines 388-392).  The Python argument
may be `None` (falsy); any 4-tuple is truthy, so only the `isinf` test on
`minx + miny` matters for an actual box. -/
def is_valid_bounding_box : Option BBox → Prop
  | none => False
  | some bb => ¬ isInfE (bb.1 + bb.2.1)

/-- Embedding of `is_non_empty_bounding_box` (lines 395-397):
`is_valid_bounding_box(bb) and 0 not in bb[2:]`. -/
def is_non_empty_bounding_box : Option BBox → Prop
  | none => False
  | some bb => is_valid_bounding_box (some bb) ∧ bb.2.2.1 ≠ 0 ∧ bb.2.2.2 ≠ 0

/-- Embedding of `combine_bounding_box` (lines 378-385).  The second argument
may be `None` (a child with no renderable geometry). -/
noncomputable def combine_bounding_box (bb : BBox) (other : Option BBox) :
    Except PyErr BBox :=
  if is_valid_bounding_box other then
    match other with
    | some o =>
        extend_bounding_box bb
          [(.num o.1, .num o.2.1), (.num (o.1 + o.2.2.1), .num (o.2.1 + o.2.2.2))]
    | none => .ok bb  -- dead: an absent box is never valid
  else .ok bb

/-- Embedding of `bounding_box_polyline` (lines 85-93).  The loop guard on
line 90 is `while points:`, testing the accumulator that was just initialised
to the empty list, so the body that would tokenise `normalized_points` (via the
external `normalize`/`point` helpers) is dead code and the attribute string is
never consumed. -/
noncomputable def bounding_box_polyline (points_attr : String) : Except PyErr BBox :=
  let bounding_box := EMPTY_BOUNDING_BOX
  let points : List (PyVal × PyVal) := []
  extend_bounding_box bounding_box points

/-- Python `math.fmod x y`: `x - n * y` where `n` is `x / y` rounded toward
zero. -/
noncomputable def fmod (x y : ℝ) : ℝ :=
  x - y * (if 0 ≤ x / y then (⌊x / y⌋ : ℝ) else (⌈x / y⌉ : ℝ))

open Real in
/-- Embedding of `angle(bx, by)` (lines 235-239): the angle between the vector
`(1,0)` and the vector `(bx, vy)`, canonicalised into `[0, 2π)`. -/
noncomputable def angle (bx vy : ℝ) : ℝ :=
  fmod (2 * π + (if 0 < vy then (1:ℝ) else -1) *
    Real.arccos (bx / Real.sqrt (bx * bx + vy * vy))) (2 * π)

/-- The endpoint-spanning tuple returned by the degenerate-radius branch
(line 251) and the infeasible-chord fallback (line 265).  Note that the third
and fourth components are maxima, not sizes. -/
noncomputable def arc_endpoint_rect (x1 y1 x y : ℝ) : ℝ × ℝ × ℝ × ℝ :=
  (min x x1, min y y1, max x x1, max y y1)

/-- Embedding of the radius-correction branch (lines 261-267): the recomputed
radicant and the rescaled radii; `none` models the second endpoint-spanning
fallback on lines 264-265. -/
noncomputable def arc_correct_radii (x1prime y1prime rx ry : ℝ) : Option (ℝ × ℝ) :=
  let aspect := rx / ry
  let radicant := y1prime ^ 2 + x1prime ^ 2 / aspect ^ 2
  if radicant < 0 then none
  else some (aspect * Real.sqrt radicant, Real.sqrt radicant)

/-- The four axis extrema of the full ellipse and the angles at which they
occur (lines 277-318). -/
structure ArcExtrema where
  minx : ℝ
  maxx : ℝ
  miny : ℝ
  maxy : ℝ
  tminx : ℝ
  tmaxx : ℝ
  tminy : ℝ
  tmaxy : ℝ

open Real in
/-- Embedding of the extremal-angle computation of
`bounding_box_elliptical_arc` (lines 277-318). -/
noncomputable def arc_extrema (cx cy rx ry phi : ℝ) : ArcExtrema :=
  if phi = 0 ∨ phi = π then
    { minx := cx - rx, tminx := angle (-rx) 0
      maxx := cx + rx, tmaxx := angle rx 0
      miny := cy - ry, tminy := angle 0 (-ry)
      maxy := cy + ry, tmaxy := angle 0 ry }
  else if phi = π / 2 ∨ phi = 3 * π / 2 then
    { minx := cx - ry, tminx := angle (-ry) 0
      maxx := cx + ry, tmaxx := angle ry 0
      miny := cy - rx, tminy := angle 0 (-rx)
      maxy := cy + rx, tmaxy := angle 0 rx }
  else
    -- lines 296-306
    let tminx0 := -Real.arctan (ry * Real.tan phi / rx)
    let tmaxx0 := π - Real.arctan (ry * Real.tan phi / rx)
    let minx0 := cx + rx * Real.cos tminx0 * Real.cos phi - ry * Real.sin tminx0 * Real.sin phi
    let maxx0 := cx + rx * Real.cos tmaxx0 * Real.cos phi - ry * Real.sin tmaxx0 * Real.sin phi
    let sx : ℝ × ℝ × ℝ × ℝ :=
      if minx0 > maxx0 then (maxx0, minx0, tmaxx0, tminx0) else (minx0, maxx0, tminx0, tmaxx0)
    let tmpy1 := cy + rx * Real.cos sx.2.2.1 * Real.sin phi + ry * Real.sin sx.2.2.1 * Real.cos phi
    let tminx2 := angle (sx.1 - cx) (tmpy1 - cy)
    let tmpy2 := cy + rx * Real.cos sx.2.2.2 * Real.sin phi + ry * Real.sin sx.2.2.2 * Real.cos phi
    let tmaxx2 := angle (sx.2.1 - cx) (tmpy2 - cy)
    -- lines 308-318
    let tminy0 := Real.arctan (ry / (Real.tan phi * rx))
    let tmaxy0 := Real.arctan (ry / (Real.tan phi * rx)) + π
    let miny0 := cy + rx * Real.cos tminy0 * Real.sin phi + ry * Real.sin tminy0 * Real.cos phi
    let maxy0 := cy + rx * Real.cos tmaxy0 * Real.sin phi + ry * Real.sin tmaxy0 * Real.cos phi
    let sy : ℝ × ℝ × ℝ × ℝ :=
      if miny0 > maxy0 then (maxy0, miny0, tmaxy0, tminy0) else (miny0, maxy0, tminy0, tmaxy0)
    let tmpx1 := cx + rx * Real.cos sy.2.2.1 * Real.cos phi - ry * Real.sin sy.2.2.1 * Real.sin phi
    let tminy2 := angle (tmpx1 - cx) (sy.1 - cy)
    let tmpx2 := cx + rx * Real.cos sy.2.2.2 * Real.cos phi - ry * Real.sin sy.2.2.2 * Real.sin phi
    let tmaxy2 := angle (tmpx2 - cx) (sy.2.1 - cy)
    { minx := sx.1, maxx := sx.2.1, miny := sy.1, maxy := sy.2.1
      tminx := tminx2, tmaxx := tmaxx2, tminy := tminy2, tmaxy := tmaxy2 }

open Real in
/-- Embedding of the sweep-coverage filter and final tuple of
`bounding_box_elliptical_arc` (lines 320-344): extremal angles not covered by
the swept arc are replaced by the corresponding endpoint coordinate. -/
noncomputable def arc_filtered_box (x1 y1 x y : ℝ) (e : ArcExtrema)
    (angle1 angle2 : ℝ) (otherArc : Bool) : ℝ × ℝ × ℝ × ℝ :=
  let oob : ℝ → Prop := fun t => angle1 > t ∨ angle2 < t
  let minx := if (¬ otherArc ∧ oob e.tminx) ∨ (otherArc ∧ ¬ oob e.tminx)
    then min x x1 else e.minx
  let maxx := if (¬ otherArc ∧ oob e.tmaxx) ∨ (otherArc ∧ ¬ oob e.tmaxx)
    then max x x1 else e.maxx
  let miny := if (¬ otherArc ∧ oob e.tminy) ∨ (otherArc ∧ ¬ oob e.tminy)
    then min y y1 else e.miny
  let maxy := if (¬ otherArc ∧ oob e.tmaxy) ∨ (otherArc ∧ ¬ oob e.tmaxy)
    then max y y1 else e.maxy
  (minx, miny, maxx - minx, maxy - miny)

/-- Direction normalisation of the start/end angles (lines 323-329): swap when
`sweep` is unset, then order them, remembering whether the swept arc is the
wrap-around one. -/
noncomputable def arc_sweep_order (sweep : Bool) (angle1 angle2 : ℝ) : ℝ × ℝ × Bool :=
  let p := if sweep then (angle1, angle2) else (angle2, angle1)
  if p.1 > p.2 then (p.2, p.1, true) else (p.1, p.2, false)

open Real in
/-- Embedding of `bounding_box_elliptical_arc` (lines 242-344). -/
noncomputable def bounding_box_elliptical_arc (x1 y1 rx0 ry0 phi : ℝ)
    (large sweep : Bool) (x y : ℝ) : ℝ × ℝ × ℝ × ℝ :=
  let rx := |rx0|
  let ry := |ry0|
  if rx = 0 ∨ ry = 0 then arc_endpoint_rect x1 y1 x y
  else
    let x1prime := Real.cos phi * (x1 - x) / 2 + Real.sin phi * (y1 - y) / 2
    let y1prime := -Real.sin phi * (x1 - x) / 2 + Real.cos phi * (y1 - y) / 2
    let radicant :=
      (rx ^ 2 * ry ^ 2 - rx ^ 2 * y1prime ^ 2 - ry ^ 2 * x1prime ^ 2) /
        (rx ^ 2 * y1prime ^ 2 + ry ^ 2 * x1prime ^ 2)
    -- `(rx, ry, cxprime, cyprime)` after lines 259-272, or `none` for the
    -- second endpoint-spanning fallback
    let params : Option (ℝ × ℝ × ℝ × ℝ) :=
      if radicant < 0 then
        match arc_correct_radii x1prime y1prime rx ry with
        | none => none
        | some rr => some (rr.1, rr.2, 0, 0)
      else
        let factor := (if large = sweep then (-1:ℝ) else 1) * Real.sqrt radicant
        some (rx, ry, factor * rx * y1prime / ry, -factor * ry * x1prime / rx)
    match params with
    | none => arc_endpoint_rect x1 y1 x y
    | some q =>
      let rx2 := q.1
      let ry2 := q.2.1
      let cxprime := q.2.2.1
      let cyprime := q.2.2.2
      let cx := cxprime * Real.cos phi - cyprime * Real.sin phi + (x1 + x) / 2
      let cy := cxprime * Real.sin phi + cyprime * Real.cos phi + (y1 + y) / 2
      let e := arc_extrema cx cy rx2 ry2 phi
      let angle1 := angle (x1 - cx) (y1 - cy)
      let angle2 := angle (x - cx) (y - cy)
      let ord := arc_sweep_order sweep angle1 angle2
      arc_filtered_box x1 y1 x y e ord.1 ord.2.1 ord.2.2

/-- Embedding of the arc handling of the `aA` branch of `bounding_box_path`
(lines 139-144): the solver result is sliced into `points =
(arc_bounding_box[0:2], arc_bounding_box[2:])` and the running box is extended
with those two pairs; the pen moves to the (absolute) arc endpoint. -/
noncomputable def arc_step (bounding_box : BBox) (previous_x previous_y rx ry rotation : ℝ)
    (large sweep : Bool) (x y : ℝ) : Except PyErr (BBox × ℝ × ℝ) := do
  let ab := bounding_box_elliptical_arc previous_x previous_y rx ry rotation large sweep x y
  let bb ← extend_bounding_box bounding_box
    [(.num ab.1, .num ab.2.1), (.num ab.2.2.1, .num ab.2.2.2)]
  pure (bb, x, y)

/-- Python `+` on dynamically typed values: adding a string to a float raises
`TypeError`; two strings concatenate; two floats add. -/
noncomputable def pyAdd : PyVal → PyVal → Except PyErr PyVal
  | .num a, .num b => .ok (.num (a + b))
  | .str a, .str b => .ok (.str (a ++ b))
  | _, _ => .error .typeError

/-- Python `s.split(' ', 1)`: the text before the first space and the rest. -/
def pysplit1 (s : String) : String × String :=
  match s.splitOn " " with
  | [] => (s, "")  -- dead: `splitOn` always returns at least one piece
  | t :: rest => (t, String.intercalate " " rest)

/-- Embedding of the `hH` branch of `bounding_box_path` (lines 167-178).  The
operand is the raw token from `(path_data + ' ').split(' ', 1)` and is never
converted to a float: `x += previous_x` concatenates a string with a float for
the relative form, and `extend_bounding_box` compares the string against float
box fields for the absolute form.  Returns the extended box, the new
`previous_x` and the remaining path data. -/
noncomputable def h_step (bounding_box : BBox) (previous_x previous_y : PyVal)
    (lower : Bool) (path_data : String) : Except PyErr (BBox × PyVal × String) := do
  let sp := pysplit1 (path_data ++ " ")
  let x0 : PyVal := .str sp.1
  let x ← if lower then pyAdd x0 previous_x else pure x0
  let bb ← extend_bounding_box bounding_box [(x, previous_y)]
  pure (bb, x, sp.2)

/-- Embedding of the `vV` branch of `bounding_box_path` (lines 212-223),
symmetric to the `hH` branch. -/
noncomputable def v_step (bounding_box : BBox) (previous_x previous_y : PyVal)
    (lower : Bool) (path_data : String) : Except PyErr (BBox × PyVal × String) := do
  let sp := pysplit1 (path_data ++ " ")
  let y0 : PyVal := .str sp.1
  let y ← if lower then pyAdd y0 previous_y else pure y0
  let bb ← extend_bounding_box bounding_box [(previous_x, y)]
  pure (bb, y, sp.2)

/-- Python `s.strip()` on a character list: leading and trailing whitespace
removed. -/
def pyStrip (l : List Char) : List Char :=
  ((l.dropWhile Char.isWhitespace).reverse.dropWhile Char.isWhitespace).reverse

/-- Embedding of the flag-scanning loop of the `aA` branch (lines 123-124 and
126-127):

    while not large[-1].isdigit():
        large, path_data = large + path_data[0], path_data[1:].strip()

`fuel` bounds the number of iterations this model is allowed to unfold; `none`
means the fuel ran out before the loop finished.  `large[-1]` on an empty
string and `path_data[0]` on exhausted data raise `IndexError`. -/
def flagScanAux : Nat → List Char → List Char → Option (Except PyErr (List Char × List Char))
  | 0, _, _ => none
  | n + 1, large, pd =>
    match large.getLast? with
    | none => some (.error .indexError)
    | some c =>
      if c.isDigit then some (.ok (large, pd))
      else
        match pd with
        | [] => some (.error .indexError)
        | p :: rest => flagScanAux n (large ++ [p]) (pyStrip rest)

/-- Embedding of line 122 followed by the loop of lines 123-124: take the first
character of the remaining path data as the initial flag text, then run the
scanning loop. -/
def scan_flag (fuel : Nat) (pd : List Char) : Option (Except PyErr (List Char × List Char)) :=
  match pd with
  | [] => some (.error .indexError)
  | c :: rest => flagScanAux fuel [c] (pyStrip rest)

/-- A document node (an external entity from the module's point of view): a
tag, numeric attributes (the code reads attribute strings and converts them
with `float`; values are modelled as reals, and an absent attribute yields the
documented default `0`), the raw `points` attribute string, the memoised
`bounding_box` cache slot, an externally attached text bounding box, the
resolved target and feature-applicability of a `use` reference (resolution via
`parse_url`/`Tree` and `match_features` are external collaborators), and the
child nodes. -/
inductive PNode where
  | mk (tag : String) (attrs : List (String × ℝ)) (ptsAttr : String)
      (cache : Option BBox) (textBox : Option BBox)
      (useTarget : Option PNode) (applicable : Bool) (children : List PNode)

/-- The node's tag. -/
def PNode.tag : PNode → String
  | .mk t _ _ _ _ _ _ _ => t

/-- The node's numeric attributes. -/
def PNode.attrs : PNode → List (String × ℝ)
  | .mk _ a _ _ _ _ _ _ => a

/-- The node's raw `points` attribute. -/
def PNode.ptsAttr : PNode → String
  | .mk _ _ p _ _ _ _ _ => p

/-- The node's memoised bounding-box slot (`node.get('bounding_box')`). -/
def PNode.cache : PNode → Option BBox
  | .mk _ _ _ c _ _ _ _ => c

/-- The externally attached text bounding box (`node.get('text_bounding_box')`). -/
def PNode.textBox : PNode → Option BBox
  | .mk _ _ _ _ tb _ _ _ => tb

/-- The node's children. -/
def PNode.children : PNode → List PNode
  | .mk _ _ _ _ _ _ _ ch => ch

/-- Write the memoised slot (`node['bounding_box'] = bounding_box`). -/
def PNode.setCache : PNode → Option BBox → PNode
  | .mk t a p _ tb ut app ch, c => .mk t a p c tb ut app ch

/-- Python `float(node.get(name, '0'))`. -/
def PNode.attr (n : PNode) (name : String) : ℝ :=
  (List.lookup name n.attrs).getD 0

/-- Embedding of `bounding_box_rect` (lines 48-54). -/
noncomputable def bounding_box_rect (node : PNode) : BBox :=
  (↑(node.attr "x"), ↑(node.attr "y"),
   ↑(max (node.attr "width") 0), ↑(max (node.attr "height") 0))

/-- Embedding of `bounding_box_circle` (lines 57-62). -/
noncomputable def bounding_box_circle (node : PNode) : BBox :=
  let r := max (node.attr "r") 0
  (↑(node.attr "cx" - r), ↑(node.attr "cy" - r), ↑(2 * r), ↑(2 * r))

/-- Embedding of `bounding_box_ellipse` (lines 65-71). -/
noncomputable def bounding_box_ellipse (node : PNode) : BBox :=
  let rx := max (node.attr "rx") 0
  let ry := max (node.attr "ry") 0
  (↑(node.attr "cx" - rx), ↑(node.attr "cy" - ry), ↑(2 * rx), ↑(2 * ry))

/-- Embedding of `bounding_box_line` (lines 74-82). -/
noncomputable def bounding_box_line (node : PNode) : BBox :=
  let x1 := node.attr "x1"
  let y1 := node.attr "y1"
  let x2 := node.attr "x2"
  let y2 := node.attr "y2"
  (↑(min x1 x2), ↑(min y1 y2), ↑(max x1 x2 - min x1 x2), ↑(max y1 y2 - min y1 y2))

/-- The tags of the `BOUNDING_BOX_METHODS` dispatch table (lines 400-414) that
this model embeds.  The `path` entry is not modelled here: `bounding_box_path`
is built on the external tokenizer (`normalize` and `point` from `helpers`),
and its per-command semantics are embedded separately above. -/
def METHOD_TAGS : List String :=
  ["rect", "circle", "ellipse", "line", "polyline", "polygon",
   "text", "tspan", "textPath", "g", "use", "marker"]

/-- The common tail of `calculate_bounding_box` (lines 43-45): cache the
computed box only when it is non-empty, then `return node.get('bounding_box')`
alongside the (possibly child-updated) node. -/
noncomputable def cache_step (node : PNode) (bb : Option BBox) : Option BBox × PNode :=
  if is_non_empty_bounding_box bb then (bb, node.setCache bb) else (node.cache, node)

mutual

/-- The dispatch `BOUNDING_BOX_METHODS[node.tag](node)` of line 42, for the
modelled tags: the method's returned box (which may be `None` for the text
family and `use`) together with the node whose descendants' caches were
updated by the recursion.  `bounding_box_use` (lines 356-362) is modelled from
the spec where it leaves the module: resolution (`parse_url`/`Tree`) and
`match_features` are external collaborators, an unresolved or inapplicable
target yields no box, and an applicable target recurses into the dispatcher. -/
noncomputable def run_bounding_box_method (node : PNode) :
    Except PyErr (Option BBox × PNode) :=
  match node with
  | .mk tag attrs pts cache tb ut app children =>
    if tag = "g" ∨ tag = "marker" then do
      let r ← bounding_box_group_children children EMPTY_BOUNDING_BOX
      pure (some r.1, .mk tag attrs pts cache tb ut app r.2)
    else if tag = "use" then
      match ut with
      | none => pure (none, .mk tag attrs pts cache tb none app children)
      | some t =>
        if app then do
          let r ← calculate_bounding_box t
          pure (r.1, .mk tag attrs pts cache tb (some r.2) app children)
        else pure (none, .mk tag attrs pts cache tb (some t) app children)
    else if tag = "polyline" ∨ tag = "polygon" then do
      let bb ← bounding_box_polyline pts
      pure (some bb, .mk tag attrs pts cache tb ut app children)
    else
      let n0 : PNode := .mk tag attrs pts cache tb ut app children
      let bb : Option BBox :=
        if tag = "rect" then some (bounding_box_rect n0)
        else if tag = "circle" then some (bounding_box_circle n0)
        else if tag = "ellipse" then some (bounding_box_ellipse n0)
        else if tag = "line" then some (bounding_box_line n0)
        else n0.textBox  -- text, tspan, textPath: `bounding_box_text` (lines 230-232)
      pure (bb, n0)
termination_by (sizeOf node, 0)

/-- Embedding of `calculate_bounding_box` (lines 35-45): compute only when the
slot is unset and the tag is known, cache only a non-empty result, and answer
with the contents of the slot (`return node.get('bounding_box')`).  Mutation
of the externally owned node dictionaries is modelled by returning the updated
node. -/
noncomputable def calculate_bounding_box (node : PNode) :
    Except PyErr (Option BBox × PNode) :=
  if node.cache = none ∧ node.tag ∈ METHOD_TAGS then do
    let r ← run_bounding_box_method node
    pure (cache_step r.2 r.1)
  else pure (node.cache, node)
termination_by (sizeOf node, 1)

/-- Embedding of the loop of `bounding_box_group` (lines 347-353): fold
`combine_bounding_box` over the children's own `calculate_bounding_box`
results, threading the children's cache updates. -/
noncomputable def bounding_box_group_children (children : List PNode) (acc : BBox) :
    Except PyErr (BBox × List PNode) :=
  match children with
  | [] => pure (acc, [])
  | c :: rest => do
    let rc ← calculate_bounding_box c
    let acc2 ← combine_bounding_box acc rc.1
    let rr ← bounding_box_group_children rest acc2
    pure (rr.1, rc.2 :: rr.2)
termination_by (sizeOf children, 2)

end

/-- A `rect` node whose `width` attribute collapsed to `0` (its computed box
is degenerate and must not be cached). -/
def degRectNode : PNode :=
  .mk "rect" [("x", 1), ("y", 2), ("width", 0), ("height", 5)] "" none none none true []

/-- The same `rect` node after its `width` attribute was externally mutated to
`3`. -/
def mutRectNode : PNode :=
  .mk "rect" [("x", 1), ("y", 2), ("width", 3), ("height", 5)] "" none none none true []

/-! ### Helper lemmas -/

/-- Coercion commutes with `min`. -/
theorem ereal_coe_min (a b : ℝ) : min (a : EReal) (b : EReal) = ((min a b : ℝ) : EReal) := by
  rcases le_total a b with h | h <;>
    simp [min_eq_left, min_eq_right, h, EReal.coe_le_coe_iff]

/-- Coercion commutes with `max`. -/
theorem ereal_coe_max (a b : ℝ) : max (a : EReal) (b : EReal) = ((max a b : ℝ) : EReal) := by
  rcases le_total a b with h | h <;>
    simp [max_eq_left, max_eq_right, h, EReal.coe_le_coe_iff]

/-- A finite coercion is not infinite. -/
theorem not_isInfE_coe (a : ℝ) : ¬ isInfE (a : EReal) := by
  simp [isInfE]

/-- The top sentinel is infinite. -/
theorem isInfE_top : isInfE (⊤ : EReal) := Or.inl rfl

/-! ### Claim theorems -/

/-- Claim C10: in the radius-correction branch (reached with `rx > 0` and
`ry > 0`), the recomputed radicant `y1prime² + x1prime² / ratio²` is a sum of
squares and hence nonnegative, so `arc_correct_radii` never takes its
endpoint-spanning fallback (the second `radicant < 0` return is unreachable)
and the subsequent square root is applied to a nonnegative number. -/
theorem c10_radius_correction_radicant_nonneg :
    ∀ x1prime y1prime rx ry : ℝ, 0 < rx → 0 < ry →
      0 ≤ y1prime ^ 2 + x1prime ^ 2 / (rx / ry) ^ 2 ∧
      (arc_correct_radii x1prime y1prime rx ry).isSome := by
  intro x1prime y1prime rx ry _ _
  have h : 0 ≤ y1prime ^ 2 + x1prime ^ 2 / (rx / ry) ^ 2 := by positivity
  refine ⟨h, ?_⟩
  unfold arc_correct_radii
  simp only [not_lt.2 h, if_false]
  rfl

/-- Witness for C10 at a concrete input. -/
theorem c10_radius_correction_radicant_nonneg_witness :
    0 ≤ (2:ℝ) ^ 2 + (1:ℝ) ^ 2 / ((3:ℝ) / 4) ^ 2 ∧ (arc_correct_radii 1 2 3 4).isSome :=
  c10_radius_correction_radicant_nonneg 1 2 3 4 (by norm_num) (by norm_num)

/-- Claim C1 (refuted): the zero-radius degenerate branch of
`bounding_box_elliptical_arc` returns `(min x x1, min y y1, max x x1,
max y y1)`, so with both endpoints at `(-5, -5)` it returns the box
`(-5, -5, -5, -5)`: a valid box (finite `minX`, `minY`) whose third
component — the width slot of the module's `(minx, miny, width, height)`
data model — is negative. -/
theorem c1_degenerate_arc_negative_width :
    bounding_box_elliptical_arc (-5) (-5) 0 1 0 false false (-5) (-5) = (-5, -5, -5, -5) ∧
    is_valid_bounding_box (some (((-5 : ℝ) : EReal), ((-5 : ℝ) : EReal),
      ((-5 : ℝ) : EReal), ((-5 : ℝ) : EReal))) ∧
    ((-5 : ℝ) < 0) := by
  refine ⟨?_, ?_, by norm_num⟩
  · unfold bounding_box_elliptical_arc
    norm_num [arc_endpoint_rect]
  · simp [is_valid_bounding_box, isInfE, ← EReal.coe_neg, ← EReal.coe_add]

/-- Claim C2 (refuted): on a zero-radius arc from `(1,1)` to `(3,3)` the
degenerate branch of `bounding_box_elliptical_arc` returns `(1, 1, 3, 3)` —
the third and fourth components are the endpoint maxima, not the spans
`|x - x1| = |y - y1| = 2` that the `(minX, minY, width, height)` data model
prescribes. -/
theorem c2_degenerate_arc_max_not_width :
    bounding_box_elliptical_arc 1 1 0 5 0 false false 3 3 = (1, 1, 3, 3) ∧
    ((1 : ℝ), (1 : ℝ), (3 : ℝ), (3 : ℝ)) ≠
      (min (3:ℝ) 1, min (3:ℝ) 1, |(3:ℝ) - 1|, |(3:ℝ) - 1|) := by
  constructor
  · unfold bounding_box_elliptical_arc
    norm_num [arc_endpoint_rect]
  · norm_num

/-- Claim C5 (refuted): `bounding_box_polyline` raises `ValueError` on every
points attribute — including the well-formed `"0,0 10,5"` — because the
parsing loop's guard tests the empty accumulator, so `zip(*points)` is
unpacked on an empty list instead of the parsed point list. -/
theorem c5_polyline_raises :
    bounding_box_polyline "0,0 10,5" = .error .valueError := rfl

/-- Claim C6 (refuted): every `H`/`h`/`V`/`v` command raises `TypeError`: the
operand token is never converted from string to float, so the relative forms
fail in `x += previous_x` (string plus float) and the absolute forms fail
inside `extend_bounding_box` when `min` compares the string against the float
box fields.  Evaluated on the path `M 0 0 H 5` (and its `h`/`V`/`v`
variants), with the pen at the origin and operand token `5`. -/
theorem c6_hv_type_error :
    h_step EMPTY_BOUNDING_BOX (.num 0) (.num 0) true "5" = .error .typeError ∧
    h_step EMPTY_BOUNDING_BOX (.num 0) (.num 0) false "5" = .error .typeError ∧
    v_step EMPTY_BOUNDING_BOX (.num 0) (.num 0) true "5" = .error .typeError ∧
    v_step EMPTY_BOUNDING_BOX (.num 0) (.num 0) false "5" = .error .typeError :=
  ⟨rfl, rfl, rfl, rfl⟩

/-- Evaluation of `extend_bounding_box` on a finite box and two numeric
points. -/
theorem extend_two_points (m1 m2 w h a1 b1 a2 b2 : EReal)
    (hm1 : ¬ isInfE m1) (hm2 : ¬ isInfE m2) :
    extend_bounding_box (m1, m2, w, h) [(.num a1, .num b1), (.num a2, .num b2)] =
      .ok (min (min m1 a1) a2, min (min m2 b1) b2,
        max (max (m1 + w) a1) a2 - min (min m1 a1) a2,
        max (max (m2 + h) b1) b2 - min (min m2 b1) b2) := by
  have e1 : (if isInfE m1 then (⊥ : EReal) else m1 + w) = m1 + w := if_neg hm1
  have e2 : (if isInfE m2 then (⊥ : EReal) else m2 + h) = m2 + h := if_neg hm2
  unfold extend_bounding_box
  simp only []
  rw [e1, e2]
  rfl

/-- Evaluation of `extend_bounding_box` on the empty sentinel box and two
numeric points. -/
theorem extend_two_points_empty (a1 b1 a2 b2 : EReal) :
    extend_bounding_box EMPTY_BOUNDING_BOX [(.num a1, .num b1), (.num a2, .num b2)] =
      .ok (min (min ⊤ a1) a2, min (min ⊤ b1) b2,
        max (max ⊥ a1) a2 - min (min ⊤ a1) a2,
        max (max ⊥ b1) b2 - min (min ⊤ b1) b2) := by
  have e1 : (if isInfE (⊤ : EReal) then (⊥ : EReal) else ⊤ + 0) = ⊥ := if_pos isInfE_top
  unfold extend_bounding_box EMPTY_BOUNDING_BOX
  simp only []
  rw [e1]
  rfl

/-- Claim C9: `combine_bounding_box` is idempotent on every valid box with
nonnegative width and height, and leaves its first argument unchanged when the
second argument is invalid or absent. -/
theorem c9_combine_idempotent :
    (∀ mx my w h : ℝ, 0 ≤ w → 0 ≤ h →
      combine_bounding_box ((mx : EReal), (my : EReal), (w : EReal), (h : EReal))
          (some ((mx : EReal), (my : EReal), (w : EReal), (h : EReal))) =
        .ok ((mx : EReal), (my : EReal), (w : EReal), (h : EReal))) ∧
    (∀ bb other, ¬ is_valid_bounding_box other → combine_bounding_box bb other = .ok bb) := by
  constructor
  · intro mx my w h hw hh
    have hvalid : is_valid_bounding_box
        (some ((mx : EReal), (my : EReal), (w : EReal), (h : EReal))) := by
      simp [is_valid_bounding_box, isInfE, ← EReal.coe_add]
    unfold combine_bounding_box
    rw [if_pos hvalid]
    show extend_bounding_box ((mx : EReal), (my : EReal), (w : EReal), (h : EReal))
      [(.num ↑mx, .num ↑my), (.num ((mx : EReal) + ↑w), .num ((my : EReal) + ↑h))] =
        .ok ((mx : EReal), (my : EReal), (w : EReal), (h : EReal))
    rw [extend_two_points _ _ _ _ _ _ _ _ (not_isInfE_coe mx) (not_isInfE_coe my)]
    have hminx : min (min (mx : EReal) ↑mx) (↑mx + ↑w) = (mx : EReal) := by
      rw [min_self, ← EReal.coe_add, ereal_coe_min]
      exact congrArg Real.toEReal (min_eq_left (by linarith))
    have hminy : min (min (my : EReal) ↑my) (↑my + ↑h) = (my : EReal) := by
      rw [min_self, ← EReal.coe_add, ereal_coe_min]
      exact congrArg Real.toEReal (min_eq_left (by linarith))
    have hmaxx : max (max ((mx : EReal) + ↑w) ↑mx) (↑mx + ↑w) = (mx : EReal) + ↑w := by
      rw [← EReal.coe_add, ereal_coe_max, ereal_coe_max]
      exact congrArg Real.toEReal
        (by rw [show max (mx + w) mx = mx + w from max_eq_left (by linarith), max_self])
    have hmaxy : max (max ((my : EReal) + ↑h) ↑my) (↑my + ↑h) = (my : EReal) + ↑h := by
      rw [← EReal.coe_add, ereal_coe_max, ereal_coe_max]
      exact congrArg Real.toEReal
        (by rw [show max (my + h) my = my + h from max_eq_left (by linarith), max_self])
    rw [hminx, hminy, hmaxx, hmaxy]
    have hsubx : (mx : EReal) + ↑w - ↑mx = (w : EReal) := by
      rw [← EReal.coe_add, ← EReal.coe_sub]
      exact congrArg Real.toEReal (by ring)
    have hsuby : (my : EReal) + ↑h - ↑my = (h : EReal) := by
      rw [← EReal.coe_add, ← EReal.coe_sub]
      exact congrArg Real.toEReal (by ring)
    rw [hsubx, hsuby]
  · intro bb other hinv
    unfold combine_bounding_box
    rw [if_neg hinv]

/-- Witness for C9 at the concrete box `(1, 2, 3, 4)` and at an absent second
argument. -/
theorem c9_combine_idempotent_witness :
    combine_bounding_box (((1:ℝ) : EReal), ((2:ℝ) : EReal), ((3:ℝ) : EReal), ((4:ℝ) : EReal))
        (some (((1:ℝ) : EReal), ((2:ℝ) : EReal), ((3:ℝ) : EReal), ((4:ℝ) : EReal))) =
      .ok (((1:ℝ) : EReal), ((2:ℝ) : EReal), ((3:ℝ) : EReal), ((4:ℝ) : EReal)) ∧
    combine_bounding_box EMPTY_BOUNDING_BOX none = .ok EMPTY_BOUNDING_BOX :=
  ⟨c9_combine_idempotent.1 1 2 3 4 (by norm_num) (by norm_num),
   c9_combine_idempotent.2 _ _ (by simp [is_valid_bounding_box])⟩

/-- One-step unfolding of the flag-scanning loop at positive fuel. -/
theorem flagScanAux_succ (n : Nat) (large pd : List Char) :
    flagScanAux (n + 1) large pd =
      match large.getLast? with
      | none => some (.error .indexError)
      | some c =>
        if c.isDigit then some (.ok (large, pd))
        else
          match pd with
          | [] => some (.error .indexError)
          | p :: rest => flagScanAux n (large ++ [p]) (pyStrip rest) := rfl

/-- Stripping never lengthens a string. -/
theorem pyStrip_length_le (l : List Char) : (pyStrip l).length ≤ l.length := by
  unfold pyStrip
  calc ((l.dropWhile Char.isWhitespace).reverse.dropWhile Char.isWhitespace).reverse.length
      = ((l.dropWhile Char.isWhitespace).reverse.dropWhile Char.isWhitespace).length := by
        rw [List.length_reverse]
    _ ≤ (l.dropWhile Char.isWhitespace).reverse.length :=
        (List.dropWhile_sublist _).length_le
    _ = (l.dropWhile Char.isWhitespace).length := by rw [List.length_reverse]
    _ ≤ l.length := (List.dropWhile_sublist _).length_le

/-- The flag-scanning loop finishes (with a parse or an `IndexError`) once the
fuel exceeds the length of the remaining path data: each iteration consumes
one character of `pd`. -/
theorem flagScanAux_isSome : ∀ n large pd, pd.length < n → (flagScanAux n large pd).isSome := by
  intro n
  induction n with
  | zero => intro large pd h; exact absurd h (Nat.not_lt_zero _)
  | succ k ih =>
    intro large pd h
    rw [flagScanAux_succ]
    cases hl : large.getLast? with
    | none => simp
    | some c =>
      by_cases hd : c.isDigit
      · simp [hd]
      · cases pd with
        | nil => simp [hd]
        | cons p rest =>
          simp only [hd, Bool.false_eq_true, if_false]
          apply ih
          have h1 := pyStrip_length_le rest
          simp only [List.length_cons] at h
          omega

/-- The result of the flag-scanning loop does not depend on the fuel, once
there is any fuel at all that produces a result. -/
theorem flagScanAux_mono : ∀ n m : Nat, n ≤ m → ∀ large pd r,
    flagScanAux n large pd = some r → flagScanAux m large pd = some r := by
  intro n
  induction n with
  | zero => intro m _ large pd r h; simp [flagScanAux] at h
  | succ k ih =>
    intro m hm large pd r h
    obtain ⟨m2, rfl⟩ : ∃ m2, m = m2 + 1 := ⟨m - 1, by omega⟩
    rw [flagScanAux_succ] at h ⊢
    cases hl : large.getLast? with
    | none => rw [hl] at h; exact h
    | some c =>
      rw [hl] at h
      simp only [] at h ⊢
      by_cases hd : c.isDigit
      · rw [if_pos hd] at h ⊢; exact h
      · rw [if_neg hd] at h ⊢
        cases pd with
        | nil => exact h
        | cons p rest => exact ih m2 (by omega) _ _ _ h

/-- Claim C7 (amended): for every flag prefix and remaining path data the
large/sweep flag-scanning loop terminates — it consumes at most the whole
remaining string, producing a parse or an `IndexError`, and the outcome is
independent of any fuel beyond that bound, so the model with fuel
`length + 1` is the loop's exact semantics and no input makes it run
forever. -/
theorem c7_flag_scan_terminates :
    ∀ large pd n m, pd.length < n → n ≤ m →
      (flagScanAux n large pd).isSome ∧ flagScanAux m large pd = flagScanAux n large pd := by
  intro large pd n m hn hm
  have h1 := flagScanAux_isSome n large pd hn
  obtain ⟨r, hr⟩ := Option.isSome_iff_exists.1 h1
  exact ⟨h1, by rw [hr, flagScanAux_mono n m hm large pd r hr]⟩

/-- Witness for the amended C7 at concrete fuel values. -/
theorem c7_flag_scan_terminates_witness :
    (flagScanAux 2 ['x'] ['y']).isSome ∧ flagScanAux 5 ['x'] ['y'] = flagScanAux 2 ['x'] ['y'] :=
  c7_flag_scan_terminates ['x'] ['y'] 2 5 (by norm_num) (by norm_num)

/-- Counterexample to C7 as stated: on the archetypal malformed flag sequence
`abc` — a run of non-digit characters with no terminating digit anywhere in
the remaining path data — the scanning loop does not loop indefinitely: it
stops with an `IndexError` after consuming the whole remainder (fuel `4`
already exceeds the bound, and by `c7_flag_scan_terminates` more fuel cannot
change the outcome). -/
theorem c7_flag_scan_stops_with_error :
    scan_flag 4 ['a', 'b', 'c'] = some (.error .indexError) := rfl

/-- Evaluation rule for `fmod` at a nonnegative numerator once the floor of
the quotient is known. -/
theorem fmod_eval (x y : ℝ) (hy : 0 < y) (n : ℤ) (h0 : 0 ≤ x) (hn : ⌊x / y⌋ = n) :
    fmod x y = x - y * n := by
  unfold fmod
  rw [if_pos (div_nonneg h0 hy.le), hn]

open Real in
/-- The angle of the positive x direction is `0`. -/
theorem angle_pos_x (r : ℝ) (hr : 0 < r) : angle r 0 = 0 := by
  unfold angle
  have hs : Real.sqrt (r * r + 0 * 0) = r := by
    rw [mul_zero, add_zero, Real.sqrt_mul_self hr.le]
  rw [hs, div_self hr.ne', Real.arccos_one, mul_zero, add_zero]
  have hfl : ⌊2 * π / (2 * π)⌋ = 1 := by
    rw [div_self (by positivity : (0:ℝ) < 2 * π).ne']
    exact Int.floor_one
  rw [fmod_eval _ _ (by positivity) 1 (by positivity) hfl]
  push_cast
  ring

open Real in
/-- The angle of the negative x direction is `π`. -/
theorem angle_neg_x (r : ℝ) (hr : 0 < r) : angle (-r) 0 = π := by
  unfold angle
  have hs : Real.sqrt (-r * -r + 0 * 0) = r := by
    rw [neg_mul_neg, mul_zero, add_zero, Real.sqrt_mul_self hr.le]
  rw [hs]
  have hq : -r / r = -1 := by rw [neg_div, div_self hr.ne']
  rw [hq, Real.arccos_neg_one, if_neg (lt_irrefl (0:ℝ))]
  have h1 : 2 * π + (-1 : ℝ) * π = π := by ring
  rw [h1]
  have hd : π / (2 * π) = 1 / 2 := by
    rw [mul_comm, div_mul_eq_div_div, div_self Real.pi_ne_zero]
  have hfl : ⌊π / (2 * π)⌋ = 0 := by rw [hd]; norm_num
  rw [fmod_eval _ _ (by positivity) 0 Real.pi_pos.le hfl]
  push_cast
  ring

open Real in
/-- The angle of the negative y direction is `3π/2`. -/
theorem angle_neg_y (r : ℝ) (hr : 0 < r) : angle 0 (-r) = 3 * π / 2 := by
  unfold angle
  have hs : Real.sqrt (0 * 0 + -r * -r) = r := by
    rw [neg_mul_neg, zero_mul, zero_add, Real.sqrt_mul_self hr.le]
  rw [hs, zero_div, Real.arccos_zero, if_neg (by linarith : ¬ (0:ℝ) < -r)]
  have h1 : 2 * π + (-1 : ℝ) * (π / 2) = 3 * π / 2 := by ring
  rw [h1]
  have hd : 3 * π / 2 / (2 * π) = 3 / 4 := by
    field_simp
    ring
  have hfl : ⌊3 * π / 2 / (2 * π)⌋ = 0 := by rw [hd]; norm_num
  rw [fmod_eval _ _ (by positivity) 0 (by positivity) hfl]
  push_cast
  ring

open Real in
/-- The angle of the positive y direction is `π/2`. -/
theorem angle_pos_y (r : ℝ) (hr : 0 < r) : angle 0 r = π / 2 := by
  unfold angle
  have hs : Real.sqrt (0 * 0 + r * r) = r := by
    rw [zero_mul, zero_add, Real.sqrt_mul_self hr.le]
  rw [hs, zero_div, Real.arccos_zero, if_pos hr]
  have h1 : 2 * π + (1 : ℝ) * (π / 2) = 5 * π / 2 := by ring
  rw [h1]
  have hd : 5 * π / 2 / (2 * π) = 5 / 4 := by
    field_simp
    ring
  have hfl : ⌊5 * π / 2 / (2 * π)⌋ = 1 := by
    rw [hd, Int.floor_eq_iff]
    norm_num
  rw [fmod_eval _ _ (by positivity) 1 (by positivity) hfl]
  push_cast
  ring

open Real in
/-- The ellipse extrema for the axis-aligned circle of radius `5` centred at
`(5, 0)`. -/
theorem arc_extrema_semicircle :
    arc_extrema 5 0 5 5 0 =
      ⟨0, 10, -5, 5, π, 0, 3 * π / 2, π / 2⟩ := by
  unfold arc_extrema
  rw [if_pos (Or.inl rfl)]
  rw [angle_neg_x 5 (by norm_num), angle_pos_x 5 (by norm_num),
      angle_neg_y 5 (by norm_num), angle_pos_y 5 (by norm_num)]
  norm_num

open Real in
/-- Direction normalisation for the semicircle: start angle `π`, end angle
`0`, sweep set: the ordered pair wraps, so `other_arc` is chosen. -/
theorem arc_sweep_order_semicircle : arc_sweep_order true π 0 = (0, π, true) := by
  unfold arc_sweep_order
  have hπ : (0:ℝ) < π := Real.pi_pos
  simp [gt_iff_lt, hπ]

open Real in
/-- The sweep-coverage filter for the semicircle: the `y` maximum at angle
`π/2` is not covered by the wrap-around arc `[π, 2π] ∪ {0}` and is replaced by
the endpoint maximum `0`, while the covered `y` minimum `-5` survives. -/
theorem arc_filtered_semicircle :
    arc_filtered_box 0 0 10 0 ⟨0, 10, -5, 5, π, 0, 3 * π / 2, π / 2⟩ 0 π true =
      (0, -5, 10, 5) := by
  unfold arc_filtered_box
  have hπ : (0:ℝ) < π := Real.pi_pos
  have h1 : ¬((0:ℝ) > π ∨ π < π) := by push_neg; exact ⟨by linarith, le_refl π⟩
  have h2 : ¬((0:ℝ) > 0 ∨ π < 0) := by push_neg; exact ⟨le_refl 0, by linarith⟩
  have h3 : ((0:ℝ) > 3 * π / 2 ∨ π < 3 * π / 2) := Or.inr (by linarith)
  have h4 : ¬((0:ℝ) > π / 2 ∨ π < π / 2) := by push_neg; exact ⟨by linarith, by linarith⟩
  simp only [h1, h3, h2, h4]
  norm_num [min_def, max_def]

open Real in
/-- Full evaluation of the arc solver on the axis-aligned semicircle from
`(0,0)` to `(10,0)` with `rx = ry = 5`, `φ = 0`, `largeArc = sweep = 1`: the
exact sub-rectangle is `(minx, miny, width, height) = (0, -5, 10, 5)`. -/
theorem arc_semicircle_eval :
    bounding_box_elliptical_arc 0 0 5 5 0 true true 10 0 = (0, -5, 10, 5) := by
  unfold bounding_box_elliptical_arc
  rw [if_neg (by norm_num : ¬(|(5:ℝ)| = 0 ∨ |(5:ℝ)| = 0))]
  simp only [Real.cos_zero, Real.sin_zero]
  norm_num [Real.sqrt_zero]
  rw [angle_neg_x 5 (by norm_num), angle_pos_x 5 (by norm_num),
    arc_sweep_order_semicircle, arc_extrema_semicircle, arc_filtered_semicircle]

/-- The empty sentinel beats a finite coercion in `min`. -/
theorem min_top_coe (a : ℝ) : min (⊤ : EReal) (a : EReal) = (a : EReal) :=
  min_eq_right le_top

/-- The empty sentinel loses to a finite coercion in `max`. -/
theorem max_bot_coe (a : ℝ) : max (⊥ : EReal) (a : EReal) = (a : EReal) :=
  max_eq_right bot_le

/-- Claim C4: running the path interpreter's `A` handling on the axis-aligned
arc `φ = 0`, `(0,0) → (10,0)`, `rx = ry = 5`, `largeArc = sweep = 1` (pen at
the start point, running box empty) produces the box `(minX, minY, width,
height) = (0, -5, 10, 10)`: the height is exactly `10` and the x-extent is
exactly `[0, 10]` (`minX = 0` and `minX + width = 10`). -/
theorem c4_semicircle_box :
    arc_step EMPTY_BOUNDING_BOX 0 0 5 5 0 true true 10 0 =
      .ok ((((0:ℝ) : EReal), ((-5:ℝ) : EReal), ((10:ℝ) : EReal), ((10:ℝ) : EReal)),
        10, 0) := by
  unfold arc_step
  rw [arc_semicircle_eval]
  show (do
    let bb ← extend_bounding_box EMPTY_BOUNDING_BOX
      [(.num ((0:ℝ) : EReal), .num ((-5:ℝ) : EReal)),
       (.num ((10:ℝ) : EReal), .num ((5:ℝ) : EReal))]
    pure (bb, (10:ℝ), (0:ℝ)) : Except PyErr (BBox × ℝ × ℝ)) = _
  rw [extend_two_points_empty]
  simp only [min_top_coe, max_bot_coe, ereal_coe_min, ereal_coe_max, ← EReal.coe_sub]
  norm_num

/-- Claim C3 (refuted): for the `A` command the interpreter extends the box
with `arc_bounding_box[0:2]` and `arc_bounding_box[2:]`.  On the semicircle
arc the solver returns the sub-rectangle `(minX, minY, width, height) =
(0, -5, 10, 5)`, so the second extension point is `(width, height) = (10, 5)`
and the interpreter (running box `(0,0,0,0)` after `M 0 0`) yields
`(0, -5, 10, 10)`, whereas extending with the sub-rectangle's two corner
points `(minX, minY) = (0, -5)` and `(minX + width, minY + height) = (10, 0)`
as the claim states yields `(0, -5, 10, 5)` — a different box. -/
theorem c3_arc_step_extends_width_height_point :
    bounding_box_elliptical_arc 0 0 5 5 0 true true 10 0 = (0, -5, 10, 5) ∧
    arc_step (((0:ℝ) : EReal), ((0:ℝ) : EReal), ((0:ℝ) : EReal), ((0:ℝ) : EReal))
        0 0 5 5 0 true true 10 0 =
      .ok ((((0:ℝ) : EReal), ((-5:ℝ) : EReal), ((10:ℝ) : EReal), ((10:ℝ) : EReal)),
        10, 0) ∧
    extend_bounding_box (((0:ℝ) : EReal), ((0:ℝ) : EReal), ((0:ℝ) : EReal), ((0:ℝ) : EReal))
        [(.num ((0:ℝ) : EReal), .num ((-5:ℝ) : EReal)),
         (.num (((0:ℝ) + 10 : ℝ) : EReal), .num (((-5:ℝ) + 5 : ℝ) : EReal))] =
      .ok ((((0:ℝ) : EReal), ((-5:ℝ) : EReal), ((10:ℝ) : EReal), ((5:ℝ) : EReal))) ∧
    ((10:ℝ) : EReal) ≠ ((5:ℝ) : EReal) := by
  refine ⟨arc_semicircle_eval, ?_, ?_, by norm_num⟩
  · unfold arc_step
    rw [arc_semicircle_eval]
    show (do
      let bb ← extend_bounding_box
        (((0:ℝ) : EReal), ((0:ℝ) : EReal), ((0:ℝ) : EReal), ((0:ℝ) : EReal))
        [(.num ((0:ℝ) : EReal), .num ((-5:ℝ) : EReal)),
         (.num ((10:ℝ) : EReal), .num ((5:ℝ) : EReal))]
      pure (bb, (10:ℝ), (0:ℝ)) : Except PyErr (BBox × ℝ × ℝ)) = _
    rw [extend_two_points _ _ _ _ _ _ _ _ (not_isInfE_coe 0) (not_isInfE_coe 0)]
    simp only [ereal_coe_min, ereal_coe_max, ← EReal.coe_add, ← EReal.coe_sub]
    norm_num
  · rw [extend_two_points _ _ _ _ _ _ _ _ (not_isInfE_coe 0) (not_isInfE_coe 0)]
    simp only [ereal_coe_min, ereal_coe_max, ← EReal.coe_add, ← EReal.coe_sub]
    norm_num

/-- Writing the cache slot stores exactly the given value. -/
theorem PNode.setCache_cache (n : PNode) (c : Option BBox) : (n.setCache c).cache = c := by
  cases n
  rfl

/-- Binding an `ok` value applies the continuation. -/
theorem except_bind_ok {ε α β : Type} (a : α) (f : α → Except ε β) :
    (Except.ok a >>= f) = f a := rfl

/-- Binding an error short-circuits. -/
theorem except_bind_error {ε α β : Type} (e : ε) (f : α → Except ε β) :
    ((Except.error e : Except ε α) >>= f) = .error e := rfl

/-- The caching tail of the dispatcher: its answer is always the post-state of
the cache slot, and the slot is either untouched or filled with the computed
box, the latter only when that box is non-empty. -/
theorem cache_step_spec (node : PNode) (bb : Option BBox) :
    (cache_step node bb).1 = (cache_step node bb).2.cache ∧
    ((cache_step node bb).2.cache = node.cache ∨
      ((cache_step node bb).2.cache = bb ∧ is_non_empty_bounding_box bb)) := by
  unfold cache_step
  by_cases h : is_non_empty_bounding_box bb
  · rw [if_pos h]
    exact ⟨(PNode.setCache_cache node bb).symm, Or.inr ⟨PNode.setCache_cache node bb, h⟩⟩
  · rw [if_neg h]
    exact ⟨rfl, Or.inl rfl⟩

/-- No dispatched method writes its own node's cache slot: only the dispatcher
tail does. -/
theorem run_method_cache (node : PNode) (bb : Option BBox) (n1 : PNode)
    (h : run_bounding_box_method node = .ok (bb, n1)) : n1.cache = node.cache := by
  cases node with
  | mk tag attrs pts cache tb ut app children =>
    rw [run_bounding_box_method.eq_def] at h
    simp only [] at h
    by_cases hg : tag = "g" ∨ tag = "marker"
    · rw [if_pos hg] at h
      cases hr : bounding_box_group_children children EMPTY_BOUNDING_BOX with
      | error e => rw [hr, except_bind_error] at h; exact absurd h (by simp)
      | ok v =>
        rw [hr, except_bind_ok] at h
        simp only [pure, Except.pure, Except.ok.injEq, Prod.mk.injEq] at h
        obtain ⟨h1, h2⟩ := h
        subst h2
        rfl
    · rw [if_neg hg] at h
      by_cases hu : tag = "use"
      · rw [if_pos hu] at h
        cases ut with
        | none =>
          simp only [pure, Except.pure, Except.ok.injEq, Prod.mk.injEq] at h
          obtain ⟨h1, h2⟩ := h
          subst h2
          rfl
        | some t =>
          simp only [] at h
          by_cases ha : app
          · rw [if_pos ha] at h
            cases hr : calculate_bounding_box t with
            | error e => rw [hr, except_bind_error] at h; exact absurd h (by simp)
            | ok v =>
              rw [hr, except_bind_ok] at h
              simp only [pure, Except.pure, Except.ok.injEq, Prod.mk.injEq] at h
              obtain ⟨h1, h2⟩ := h
              subst h2
              rfl
          · rw [if_neg ha] at h
            simp only [pure, Except.pure, Except.ok.injEq, Prod.mk.injEq] at h
            obtain ⟨h1, h2⟩ := h
            subst h2
            rfl
      · rw [if_neg hu] at h
        by_cases hp : tag = "polyline" ∨ tag = "polygon"
        · rw [if_pos hp] at h
          cases hr : bounding_box_polyline pts with
          | error e => rw [hr, except_bind_error] at h; exact absurd h (by simp)
          | ok v =>
            rw [hr, except_bind_ok] at h
            simp only [pure, Except.pure, Except.ok.injEq, Prod.mk.injEq] at h
            obtain ⟨h1, h2⟩ := h
            subst h2
            rfl
        · rw [if_neg hp] at h
          simp only [pure, Except.pure, Except.ok.injEq, Prod.mk.injEq] at h
          obtain ⟨h1, h2⟩ := h
          subst h2
          rfl

/-- A box of four finite coercions is valid. -/
theorem is_valid_coe_box (a b c d : ℝ) :
    is_valid_bounding_box (some ((a : EReal), (b : EReal), (c : EReal), (d : EReal))) := by
  simp only [is_valid_bounding_box, ← EReal.coe_add]
  exact not_isInfE_coe _

/-- A box of four finite coercions with nonzero width and height slots is
non-empty. -/
theorem is_non_empty_coe_box (a b c d : ℝ) (hc : c ≠ 0) (hd : d ≠ 0) :
    is_non_empty_bounding_box (some ((a : EReal), (b : EReal), (c : EReal), (d : EReal))) := by
  refine ⟨is_valid_coe_box a b c d, ?_, ?_⟩ <;> simp [hc, hd]

/-- Evaluation of the dispatched method on the collapsed rectangle. -/
theorem run_method_degRect :
    run_bounding_box_method degRectNode =
      .ok (some (((1:ℝ) : EReal), ((2:ℝ) : EReal), ((0:ℝ) : EReal), ((5:ℝ) : EReal)),
        degRectNode) := by
  rw [run_bounding_box_method.eq_def]
  simp only [degRectNode]
  rw [if_neg (by decide), if_neg (by decide), if_neg (by decide), if_pos trivial]
  simp [bounding_box_rect, PNode.attr, PNode.attrs, List.lookup, pure, Except.pure]

/-- Evaluation of the dispatched method on the mutated rectangle. -/
theorem run_method_mutRect :
    run_bounding_box_method mutRectNode =
      .ok (some (((1:ℝ) : EReal), ((2:ℝ) : EReal), ((3:ℝ) : EReal), ((5:ℝ) : EReal)),
        mutRectNode) := by
  rw [run_bounding_box_method.eq_def]
  simp only [mutRectNode]
  rw [if_neg (by decide), if_neg (by decide), if_neg (by decide), if_pos trivial]
  simp [bounding_box_rect, PNode.attr, PNode.attrs, List.lookup, pure, Except.pure]

/-- Claim C8: the dispatcher (1) never overwrites an existing cached value —
a cached node is answered from its slot with no recomputation and no state
change; (2) on an uncached node the answer is exactly the post-state of the
slot, which is either still unset or filled with a non-empty box (an empty or
degenerate box is never cached); (3) under the data-model invariant
`width ≥ 0 ∧ height ≥ 0`, the code's non-emptiness guard coincides with
"valid with `width > 0` and `height > 0`"; and (4) concretely, a `rect` whose
width collapsed to `0` is answered with no box and left uncached, so a later
query after the attribute was externally mutated to `3` recomputes and sees
the new attributes. -/
theorem c8_cache_protocol :
    (∀ node : PNode, ∀ b, node.cache = some b →
        calculate_bounding_box node = .ok (some b, node)) ∧
    (∀ node r node2, node.cache = none →
        calculate_bounding_box node = .ok (r, node2) →
        r = node2.cache ∧
        (node2.cache = none ∨ is_non_empty_bounding_box node2.cache)) ∧
    (∀ mx my w h : EReal, 0 ≤ w → 0 ≤ h →
        (is_non_empty_bounding_box (some (mx, my, w, h)) ↔
          is_valid_bounding_box (some (mx, my, w, h)) ∧ 0 < w ∧ 0 < h)) ∧
    calculate_bounding_box degRectNode = .ok (none, degRectNode) ∧
    calculate_bounding_box mutRectNode =
      .ok (some (((1:ℝ) : EReal), ((2:ℝ) : EReal), ((3:ℝ) : EReal), ((5:ℝ) : EReal)),
        mutRectNode.setCache
          (some (((1:ℝ) : EReal), ((2:ℝ) : EReal), ((3:ℝ) : EReal), ((5:ℝ) : EReal)))) := by
  refine ⟨?_, ?_, ?_, ?_, ?_⟩
  · intro node b hb
    rw [calculate_bounding_box.eq_def, if_neg (by simp [hb])]
    rw [hb]
    rfl
  · intro node r node2 hc hcalc
    rw [calculate_bounding_box.eq_def] at hcalc
    by_cases htab : node.cache = none ∧ node.tag ∈ METHOD_TAGS
    · rw [if_pos htab] at hcalc
      cases hr : run_bounding_box_method node with
      | error e => rw [hr, except_bind_error] at hcalc; exact absurd hcalc (by simp)
      | ok v =>
        rw [hr, except_bind_ok] at hcalc
        have hcs : cache_step v.2 v.1 = (r, node2) := by
          simpa [pure, Except.pure] using hcalc
        have h1 : r = (cache_step v.2 v.1).1 := by rw [hcs]
        have h2 : node2 = (cache_step v.2 v.1).2 := by rw [hcs]
        have hspec := cache_step_spec v.2 v.1
        have hvc : v.2.cache = node.cache := run_method_cache node v.1 v.2 (by rw [hr])
        constructor
        · rw [h1, h2]
          exact hspec.1
        · rw [h2]
          rcases hspec.2 with hcase | hcase
          · left
            rw [hcase, hvc, hc]
          · right
            rw [hcase.1]
            exact hcase.2
    · rw [if_neg htab] at hcalc
      simp only [pure, Except.pure, Except.ok.injEq, Prod.mk.injEq] at hcalc
      obtain ⟨h1, h2⟩ := hcalc
      subst h2
      exact ⟨h1.symm, Or.inl hc⟩
  · intro mx my w h hw hh
    simp only [is_non_empty_bounding_box]
    constructor
    · rintro ⟨hv, h1, h2⟩
      exact ⟨hv, hw.lt_of_ne (Ne.symm h1), hh.lt_of_ne (Ne.symm h2)⟩
    · rintro ⟨hv, h1, h2⟩
      exact ⟨hv, h1.ne', h2.ne'⟩
  · rw [calculate_bounding_box.eq_def, if_pos ⟨rfl, by decide⟩]
    rw [run_method_degRect, except_bind_ok]
    unfold cache_step
    rw [if_neg (by norm_num [is_non_empty_bounding_box])]
    rfl
  · rw [calculate_bounding_box.eq_def, if_pos ⟨rfl, by decide⟩]
    rw [run_method_mutRect, except_bind_ok]
    unfold cache_step
    rw [if_pos (is_non_empty_coe_box 1 2 3 5 (by norm_num) (by norm_num))]
    rfl

/-- Witness for C8: a node holding a cached box is answered from the slot
unchanged, and the non-emptiness guard evaluated at a concrete box with
`width = 1`, `height = 2`. -/
theorem c8_cache_protocol_witness :
    calculate_bounding_box (mutRectNode.setCache
        (some (((1:ℝ) : EReal), ((2:ℝ) : EReal), ((3:ℝ) : EReal), ((5:ℝ) : EReal)))) =
      .ok (some (((1:ℝ) : EReal), ((2:ℝ) : EReal), ((3:ℝ) : EReal), ((5:ℝ) : EReal)),
        mutRectNode.setCache
          (some (((1:ℝ) : EReal), ((2:ℝ) : EReal), ((3:ℝ) : EReal), ((5:ℝ) : EReal)))) ∧
    (is_non_empty_bounding_box
        (some (((0:ℝ) : EReal), ((0:ℝ) : EReal), ((1:ℝ) : EReal), ((2:ℝ) : EReal))) ↔
      is_valid_bounding_box
          (some (((0:ℝ) : EReal), ((0:ℝ) : EReal), ((1:ℝ) : EReal), ((2:ℝ) : EReal))) ∧
        0 < ((1:ℝ) : EReal) ∧ 0 < ((2:ℝ) : EReal)) :=
  ⟨c8_cache_protocol.1 _ _ (PNode.setCache_cache _ _),
   c8_cache_protocol.2.2.1 _ _ _ _
     (by exact_mod_cast (by norm_num : (0:ℝ) ≤ 1))
     (by exact_mod_cast (by norm_num : (0:ℝ) ≤ 2))⟩

end CairoSVG
